import Mathlib

/-!
Verification of the voice-assistant turn pipeline in `backend/app.py`.

The development shallowly embeds the pure logic of the pipeline:
* sentence segmentation (`re.split(r'(?<=[.!?])\s+', text.strip())` followed
  by per-piece strip-and-filter) in `stream_tts_generation`;
* the Bedrock request construction in `stream_bedrock_response`
  (optional system prompt when the history is empty, the `[-5:]` history
  window, the current user text);
* the per-sentence TTS chunk emission of `stream_tts_generation`;
* the WebSocket turn orchestration of `websocket_endpoint`
  (`audio_chunk` / `end_turn` / `text` / `ping` / `close` handling,
  error recovery, history appending).

External collaborators (AssemblyAI transcription, the Bedrock stream, the
Deepgram synthesis call) are modelled as oracles: per-turn values recording
what each call would return or how it would fail.
-/

namespace VoiceAgent

/-! ## Sentence segmentation (app.py lines 189-190) -/

/-- Python `\s` for the byte-level characters: space, tab, newline,
carriage return, vertical tab, form feed. -/
def isPyWs (c : Char) : Bool :=
  c = ' ' || c = '\t' || c = '\n' || c = '\r' || c = Char.ofNat 11 || c = Char.ofNat 12

/-- Sentence-terminal punctuation of the regex class `[.!?]`. -/
def isSentTerm (c : Char) : Bool :=
  c = '.' || c = '!' || c = '?'

/-- Python `str.strip()` on a character list: drop whitespace from both ends. -/
def pyStripList (l : List Char) : List Char :=
  ((l.dropWhile isPyWs).reverse.dropWhile isPyWs).reverse

/-- Python `str.strip()`. -/
def pyStrip (s : String) : String :=
  String.mk (pyStripList s.data)

/-- Character-level model of `re.split(r'(?<=[.!?])\s+', s)`: a separator is a
maximal whitespace run whose first character is immediately preceded by one of
`.`, `!`, `?`; the pieces between separators are returned in order.
`cur` is the current piece (reversed), `acc` the finished pieces (reversed),
and `skipping` records that the scanner is inside a separator's whitespace
run. -/
def splitGo (cs : List Char) (cur : List Char) (acc : List (List Char))
    (skipping : Bool) : List (List Char) :=
  match cs with
  | [] => acc.reverse ++ [cur.reverse]
  | c :: rest =>
    if skipping && isPyWs c then
      splitGo rest cur acc true
    else if isSentTerm c && (match rest with | d :: _ => isPyWs d | [] => false) then
      splitGo rest [] ((c :: cur).reverse :: acc) true
    else
      splitGo rest (c :: cur) acc false

/-- `re.split(r'(?<=[.!?])\s+', s)` on a character list. -/
def reSplitPieces (cs : List Char) : List (List Char) :=
  splitGo cs [] [] false

/-- `sentences = re.split(r'(?<=[.!?])\s+', text.strip())`
    `sentences = [s.strip() for s in sentences if s.strip()]` -/
def segmentSentences (text : String) : List String :=
  ((reSplitPieces (pyStripList text.data)).map
      (fun cs => String.mk (pyStripList cs))).filter (fun s => s ≠ "")

/-! ## Conversation messages and the Bedrock request (app.py lines 107-142) -/

inductive Role where
  | user
  | assistant
deriving DecidableEq, Repr

/-- One history entry: the code's
`{"role": r, "content": [{"type": "text", "text": t}]}`. -/
structure Message where
  role : Role
  text : String
deriving DecidableEq, Repr

def userMsg (t : String) : Message := ⟨Role.user, t⟩

def assistantMsg (t : String) : Message := ⟨Role.assistant, t⟩

/-- The `system_prompt` f-string of `stream_bedrock_response`, with the
knowledge base interpolated. -/
def systemPromptText (kb : String) : String :=
  "You are a helpful helpdesk assistant. Answer questions based on the following knowledge base:\n\n"
    ++ kb
    ++ "\nAnswer from the knowledge base file that you read only ....\n"
    ++ "Your role is that of a helpdesk assistant for a company called Shellkode, keep your response under 50 words always.. (very important)\n"
    ++ "Keep in mind that your questions are from a speech to text model, so pretend you can \"hear\" them.\n"
    ++ "If the question is not covered in the knowledge base, politely say you don't have that information and suggest contacting support.\n"
    ++ "Keep your response quite compact and to the point and professional don't be too talkative while being friendly toned"

def MAX_HISTORY : Nat := 5

/-- Python `conversation_history[-MAX_HISTORY:]`: the suffix of length
`min MAX_HISTORY (length)`. -/
def contextWindow (history : List Message) : List Message :=
  history.drop (history.length - MAX_HISTORY)

/-- The `messages` list built by `stream_bedrock_response` (and identically by
`send_to_bedrock`): the system prompt as a user turn only when the supplied
history is empty, then the `[-5:]` window, then the current user text. -/
def buildMessages (kb : String) (history : List Message) (text : String) : List Message :=
  (if history.length = 0 then [userMsg (systemPromptText kb)] else [])
    ++ contextWindow history ++ [userMsg text]

/-! ## TTS chunk emission (app.py lines 183-229) -/

/-- The payload of one `tts_chunk` protocol message. -/
structure TTSChunk where
  audio : List Nat
  chunk_index : Nat
  is_last : Bool
deriving DecidableEq, Repr

/-- The `tts_chunk` messages emitted by `stream_tts_generation` for a given
sentence list: `for i, sentence in enumerate(sentences)` sends audio with
`chunk_index = i` and `is_last = (i == len(sentences) - 1)`.
`synth` models the Deepgram call's audio bytes for a sentence. -/
def ttsChunks (synth : String → List Nat) (sentences : List String) : List TTSChunk :=
  sentences.enum.map
    (fun p => ⟨synth p.2, p.1, decide (p.1 = sentences.length - 1)⟩)

/-! ## Protocol messages and the per-turn collaborator oracle -/

/-- Server-to-client protocol messages of `websocket_endpoint`. -/
inductive ServerMsg where
  | audioReceived (chunks : Nat)
  | transcription (text : String)
  | llmStart
  | llmChunk (text : String)
  | llmComplete (fullText : String)
  | ttsStart
  | ttsChunk (c : TTSChunk)
  | ttsComplete
  | turnComplete (history : List Message)
  | error (message : String)
  | pong
deriving DecidableEq, Repr

/-- Client-to-server protocol messages. An `audio_chunk`'s `data` is carried
already base64-decoded; `end_turn` and `text` optionally carry a
`conversation_history` override. -/
inductive ClientMsg where
  | audioChunk (data : List Nat)
  | endTurn (histOverride : Option (List Message))
  | textMsg (data : String) (histOverride : Option (List Message))
  | ping
  | close
deriving DecidableEq, Repr

/-- Per-turn behaviour of the three external collaborators:
* `transcribe`: what the AssemblyAI call returns for the accumulated audio
  (or the error it raises);
* `llmChunks` / `llmError`: the text deltas the Bedrock stream delivers
  before either completing (`llmError = none`) or raising mid-stream
  (`llmError = some e`, after all of `llmChunks` were delivered);
* `synth`: the Deepgram audio bytes for each sentence;
* `ttsFailAt`: when `some j`, the Deepgram call for sentence `j` raises
  (before the chunk for `j` is sent); `ttsErrText` is that error's text. -/
structure Oracle where
  transcribe : Except String String
  llmChunks : List String
  llmError : Option String
  synth : String → List Nat
  ttsFailAt : Option Nat
  ttsErrText : String

/-! ## The turn orchestration (app.py lines 357-512) -/

/-- Per-connection mutable state of `websocket_endpoint`:
`conversation_history` and `audio_chunks`. -/
structure SessState where
  history : List Message
  audioChunks : List (List Nat)
deriving DecidableEq, Repr

/-- The observable effect of processing one inbound message: the new session
state, the protocol messages sent (in order), and — when the transcription
or generation collaborator was invoked — the exact arguments passed to it. -/
structure StepOut where
  state : SessState
  outputs : List ServerMsg
  transcribeInput : Option (List Nat)
  llmRequest : Option (List Message)
deriving Repr

/-- The messages shared by every path that reaches the LLM stream:
`transcription` (audio path only), `llm_start`, then one `llm_chunk` per
delivered delta. -/
def llmPrefix (o : Oracle) : List ServerMsg :=
  ServerMsg.llmStart :: o.llmChunks.map ServerMsg.llmChunk

/-- `stream_tts_generation` followed by the caller's epilogue: on success the
chunks are followed by `tts_complete` and `turn_complete`; when the Deepgram
call for sentence `j` raises, only the chunks before `j` were sent and the
caller's handler emits the wrapped error. -/
def ttsPhase (o : Oracle) (full : String) (hist2 : List Message) : List ServerMsg :=
  let sentences := segmentSentences full
  let chunks := (ttsChunks o.synth sentences).map ServerMsg.ttsChunk
  match o.ttsFailAt with
  | some j =>
    if j < sentences.length then
      chunks.take j
        ++ [ServerMsg.error ("Processing error: TTS error: " ++ o.ttsErrText)]
    else
      chunks ++ [ServerMsg.ttsComplete, ServerMsg.turnComplete hist2]
  | none => chunks ++ [ServerMsg.ttsComplete, ServerMsg.turnComplete hist2]

/-- Whether the turn got past the TTS phase (so `tts_complete` and
`turn_complete` were emitted). -/
def ttsOk (o : Oracle) (full : String) : Bool :=
  match o.ttsFailAt with
  | some j => decide ((segmentSentences full).length ≤ j)
  | none => true

/-- The generation-and-synthesis tail shared by the `end_turn` and `text`
paths, starting from the `llm_start` marker.  `baseHist` is the session
history the user/assistant pair is appended to; `histInput` is the history
supplied to `stream_bedrock_response`. Returns the new history and the
emitted messages. -/
def generatePhase (o : Oracle) (baseHist : List Message)
    (text : String) : List Message × List ServerMsg :=
  match o.llmError with
  | some e =>
    (baseHist,
      llmPrefix o ++ [ServerMsg.error ("Processing error: Bedrock error: " ++ e)])
  | none =>
    let full := String.join o.llmChunks
    let hist2 := baseHist ++ [userMsg text, assistantMsg full]
    (hist2,
      llmPrefix o
        ++ [ServerMsg.llmComplete full, ServerMsg.ttsStart]
        ++ ttsPhase o full hist2)

/-- Processing of an `end_turn` message (app.py lines 383-450).  Empty
buffer → lone error.  Otherwise the buffer is joined and cleared, the
transcription oracle consulted, and on non-blank text the generation and
synthesis phases run; any collaborator error is caught and reported as a
single `error` message. -/
def processEndTurn (kb : String) (o : Oracle) (st : SessState)
    (histOverride : Option (List Message)) : StepOut :=
  match st.audioChunks with
  | [] => ⟨st, [ServerMsg.error "No audio received"], none, none⟩
  | _ :: _ =>
    let fullAudio := st.audioChunks.flatten
    let st1 : SessState := ⟨st.history, []⟩
    let histInput := histOverride.getD st.history
    match o.transcribe with
    | Except.error e =>
      ⟨st1, [ServerMsg.error ("Processing error: " ++ e)], some fullAudio, none⟩
    | Except.ok text =>
      if pyStrip text = "" then
        ⟨st1, [ServerMsg.error "No speech detected"], some fullAudio, none⟩
      else
        let gen := generatePhase o st.history text
        ⟨⟨gen.1, []⟩, ServerMsg.transcription text :: gen.2,
          some fullAudio, some (buildMessages kb histInput text)⟩

/-- Processing of a `text` message (app.py lines 452-496).  The session
history is first reassigned to the supplied override (when present), then the
generation and synthesis phases run on it. -/
def processText (kb : String) (o : Oracle) (st : SessState) (data : String)
    (histOverride : Option (List Message)) : StepOut :=
  let hist0 := histOverride.getD st.history
  let gen := generatePhase o hist0 data
  ⟨⟨gen.1, st.audioChunks⟩, gen.2, none, some (buildMessages kb hist0 data)⟩

/-- One iteration of the `websocket_endpoint` receive loop.  The `Bool` is
whether the loop continues (`close` breaks it). -/
def wsStep (kb : String) (o : Oracle) (st : SessState) :
    ClientMsg → StepOut × Bool
  | ClientMsg.audioChunk d =>
    (⟨⟨st.history, st.audioChunks ++ [d]⟩,
      [ServerMsg.audioReceived (st.audioChunks.length + 1)], none, none⟩, true)
  | ClientMsg.endTurn ho => (processEndTurn kb o st ho, true)
  | ClientMsg.textMsg d ho => (processText kb o st d ho, true)
  | ClientMsg.ping => (⟨st, [ServerMsg.pong], none, none⟩, true)
  | ClientMsg.close => (⟨st, [], none, none⟩, false)

/-- Runs the receive loop over a list of inbound messages, each paired with
the collaborator oracle governing its turn; returns the final session state
and all emitted messages in order. -/
def wsRun (kb : String) : List (Oracle × ClientMsg) → SessState →
    SessState × List ServerMsg
  | [], st => (st, [])
  | (o, m) :: rest, st =>
    let r := wsStep kb o st m
    if r.2 then
      let rec2 := wsRun kb rest r.1.state
      (rec2.1, r.1.outputs ++ rec2.2)
    else
      (r.1.state, r.1.outputs)

/-- The `text` fields of the `llm_chunk` messages in an output trace, in
emission order. -/
def llmChunkTexts (msgs : List ServerMsg) : List String :=
  msgs.filterMap (fun m => match m with | ServerMsg.llmChunk t => some t | _ => none)

/-- The `tts_chunk` payloads in an output trace, in emission order. -/
def ttsChunksOf (msgs : List ServerMsg) : List TTSChunk :=
  msgs.filterMap (fun m => match m with | ServerMsg.ttsChunk c => some c | _ => none)

/-! ## Concrete collaborator oracles used by the witnesses -/

/-- An oracle that is never consulted (pure protocol steps). -/
def oracleStub : Oracle :=
  ⟨Except.error "unused", [], none, fun _ => [], none, ""⟩

/-- A fully successful turn: transcription, generation and synthesis all
succeed. -/
def oracleGood : Oracle :=
  ⟨Except.ok "Hi there", ["Hello. ", "World."], none, fun _ => [0], none, ""⟩

/-- Generation raises mid-stream after one delta. -/
def oracleLLMFail : Oracle :=
  ⟨Except.ok "Hi", ["par"], some "boom", fun _ => [], none, ""⟩

/-- Generation succeeds; the synthesis call for sentence 1 raises. -/
def oracleTTSFail : Oracle :=
  ⟨Except.ok "Hi", ["One. ", "Two."], none, fun _ => [7], some 1, "tts down"⟩

/-- Transcription returns whitespace only. -/
def oracleBlank : Oracle :=
  ⟨Except.ok "  ", [], none, fun _ => [], none, ""⟩

/-! ## Helper lemmas -/

lemma ttsChunks_length (synth : String → List Nat) (L : List String) :
    (ttsChunks synth L).length = L.length := by
  simp [ttsChunks]

lemma ttsChunks_get_fields (synth : String → List Nat) (L : List String) (i : Nat)
    (hi : i < (ttsChunks synth L).length) :
    ((ttsChunks synth L).get ⟨i, hi⟩).chunk_index = i ∧
    ((ttsChunks synth L).get ⟨i, hi⟩).is_last = decide (i = L.length - 1) := by
  simp [ttsChunks, List.get_eq_getElem, List.getElem_map, List.getElem_enum]

lemma ttsChunks_map_is_last (synth : String → List Nat) (L : List String) :
    (ttsChunks synth L).map (fun c => c.is_last)
      = (List.range L.length).map (fun i => decide (i = L.length - 1)) := by
  apply List.ext_getElem
  · simp [ttsChunks]
  · intro i h1 h2
    simp [ttsChunks, List.getElem_map, List.getElem_enum, List.getElem_range]

lemma countP_range_pred (k : Nat) (hk : 0 < k) :
    List.countP (fun i => decide (i = k - 1)) (List.range k) = 1 := by
  have h1 : List.countP (fun i => decide (i = k - 1)) (List.range k)
      = List.count (k - 1) (List.range k) := by
    apply List.countP_congr; intro x hx; simp
  have h2 : List.count (k - 1) (List.range k) ≤ 1 :=
    List.nodup_iff_count_le_one.mp (List.nodup_range k) _
  have h3 : 0 < List.count (k - 1) (List.range k) :=
    List.count_pos_iff.mpr (List.mem_range.mpr (by omega))
  omega

lemma ttsChunks_filter_is_last (synth : String → List Nat) (L : List String)
    (h : L ≠ []) :
    ((ttsChunks synth L).filter (fun c => c.is_last)).length = 1 := by
  rw [← List.countP_eq_length_filter]
  have hmap : List.countP (fun c => c.is_last) (ttsChunks synth L)
      = List.countP (fun b => b) ((ttsChunks synth L).map (fun c => c.is_last)) := by
    rw [List.countP_map]; rfl
  rw [hmap, ttsChunks_map_is_last, List.countP_map]
  have hk : 0 < L.length := List.length_pos.mpr h
  exact countP_range_pred L.length hk

lemma getLast?_cons_concat {α : Type} (a x : α) (l : List α) :
    (a :: (l ++ [x])).getLast? = some x := by
  rw [← List.cons_append, List.getLast?_concat]

lemma processEndTurn_shape (kb t : String) (o : Oracle) (st : SessState)
    (ho : Option (List Message))
    (hbuf : st.audioChunks ≠ []) (htr : o.transcribe = Except.ok t)
    (hblank : pyStrip t ≠ "") :
    processEndTurn kb o st ho =
      ⟨⟨(generatePhase o st.history t).1, []⟩,
       ServerMsg.transcription t :: (generatePhase o st.history t).2,
       some st.audioChunks.flatten,
       some (buildMessages kb (ho.getD st.history) t)⟩ := by
  match hst : st.audioChunks with
  | [] => exact absurd hst hbuf
  | a :: as => simp [processEndTurn, hst, htr, hblank]

lemma generatePhase_fail (o : Oracle) (base : List Message) (text e : String)
    (hllm : o.llmError = some e) :
    generatePhase o base text =
      (base,
       llmPrefix o ++ [ServerMsg.error ("Processing error: Bedrock error: " ++ e)]) := by
  simp [generatePhase, hllm]

lemma generatePhase_ok (o : Oracle) (base : List Message) (text : String)
    (hllm : o.llmError = none) :
    generatePhase o base text =
      (base ++ [userMsg text, assistantMsg (String.join o.llmChunks)],
       llmPrefix o
         ++ [ServerMsg.llmComplete (String.join o.llmChunks), ServerMsg.ttsStart]
         ++ ttsPhase o (String.join o.llmChunks)
              (base ++ [userMsg text, assistantMsg (String.join o.llmChunks)])) := by
  simp [generatePhase, hllm]

lemma ttsPhase_ok (o : Oracle) (full : String) (h2 : List Message)
    (htts : o.ttsFailAt = none) :
    ttsPhase o full h2 =
      (ttsChunks o.synth (segmentSentences full)).map ServerMsg.ttsChunk
        ++ [ServerMsg.ttsComplete, ServerMsg.turnComplete h2] := by
  simp [ttsPhase, htts]

lemma ttsPhase_fail (o : Oracle) (full : String) (h2 : List Message) (j : Nat)
    (htts : o.ttsFailAt = some j) (hj : j < (segmentSentences full).length) :
    ttsPhase o full h2 =
      ((ttsChunks o.synth (segmentSentences full)).map ServerMsg.ttsChunk).take j
        ++ [ServerMsg.error ("Processing error: TTS error: " ++ o.ttsErrText)] := by
  simp [ttsPhase, htts, hj]

lemma wsRun_audio_chunks (kb : String) (oA : Oracle) (ds : List (List Nat))
    (h : List Message) (acc : List (List Nat)) :
    (wsRun kb (ds.map (fun d => (oA, ClientMsg.audioChunk d))) ⟨h, acc⟩).1
      = ⟨h, acc ++ ds⟩ := by
  induction ds generalizing acc with
  | nil => simp [wsRun]
  | cons d ds ih =>
    simp only [List.map_cons, wsRun, wsStep]
    rw [ih (acc ++ [d])]
    simp

lemma llmChunkTexts_append (a b : List ServerMsg) :
    llmChunkTexts (a ++ b) = llmChunkTexts a ++ llmChunkTexts b :=
  List.filterMap_append a b _

lemma llmChunkTexts_map_llmChunk (l : List String) :
    llmChunkTexts (l.map ServerMsg.llmChunk) = l := by
  induction l with
  | nil => rfl
  | cons a l ih => simp only [List.map_cons, llmChunkTexts, List.filterMap_cons] at *; rw [ih]

lemma llmChunkTexts_map_ttsChunk (l : List TTSChunk) :
    llmChunkTexts (l.map ServerMsg.ttsChunk) = [] := by
  rw [llmChunkTexts, List.filterMap_eq_nil_iff]
  intro a ha
  rcases List.mem_map.mp ha with ⟨c, _, rfl⟩
  rfl

lemma llmChunkTexts_llmPrefix (o : Oracle) :
    llmChunkTexts (llmPrefix o) = o.llmChunks := by
  simp only [llmPrefix]
  rw [← List.singleton_append, llmChunkTexts_append, llmChunkTexts_map_llmChunk]
  rfl

lemma llmChunkTexts_ttsPhase (o : Oracle) (full : String) (h2 : List Message) :
    llmChunkTexts (ttsPhase o full h2) = [] := by
  rcases htts : o.ttsFailAt with _ | j
  · rw [ttsPhase_ok o full h2 htts, llmChunkTexts_append, llmChunkTexts_map_ttsChunk]
    rfl
  · by_cases hj : j < (segmentSentences full).length
    · rw [ttsPhase_fail o full h2 j htts hj, llmChunkTexts_append,
        ← List.map_take, llmChunkTexts_map_ttsChunk]
      rfl
    · simp only [ttsPhase, htts, if_neg hj]
      rw [llmChunkTexts_append, llmChunkTexts_map_ttsChunk]
      rfl

lemma llmChunkTexts_turn_outputs (o : Oracle) (t full : String) (h2 : List Message) :
    llmChunkTexts (ServerMsg.transcription t ::
        (llmPrefix o ++ [ServerMsg.llmComplete full, ServerMsg.ttsStart]
          ++ ttsPhase o full h2)) = o.llmChunks := by
  rw [← List.singleton_append, llmChunkTexts_append, llmChunkTexts_append,
    llmChunkTexts_append, llmChunkTexts_llmPrefix, llmChunkTexts_ttsPhase]
  simp [llmChunkTexts]

lemma getLast?_success_outputs (o : Oracle) (t full : String) (h2 : List Message)
    (htts : o.ttsFailAt = none) :
    (ServerMsg.transcription t ::
      (llmPrefix o ++ [ServerMsg.llmComplete full, ServerMsg.ttsStart]
        ++ ttsPhase o full h2)).getLast? = some (ServerMsg.turnComplete h2) := by
  rw [ttsPhase_ok o full h2 htts,
    show [ServerMsg.ttsComplete, ServerMsg.turnComplete h2]
      = [ServerMsg.ttsComplete] ++ [ServerMsg.turnComplete h2] from rfl]
  simp only [← List.append_assoc]
  exact getLast?_cons_concat _ _ _

lemma getLast?_tts_fail_outputs (o : Oracle) (t full : String) (h2 : List Message)
    (j : Nat) (htts : o.ttsFailAt = some j)
    (hj : j < (segmentSentences full).length) :
    (ServerMsg.transcription t ::
      (llmPrefix o ++ [ServerMsg.llmComplete full, ServerMsg.ttsStart]
        ++ ttsPhase o full h2)).getLast?
      = some (ServerMsg.error ("Processing error: TTS error: " ++ o.ttsErrText)) := by
  rw [ttsPhase_fail o full h2 j htts hj]
  simp only [← List.append_assoc]
  exact getLast?_cons_concat _ _ _

lemma turnComplete_not_mem_fail_outputs (o : Oracle) (t full : String)
    (h2 : List Message) (j : Nat)
    (htts : o.ttsFailAt = some j) (hj : j < (segmentSentences full).length) :
    ∀ hh, ServerMsg.turnComplete hh ∉
      (ServerMsg.transcription t ::
        (llmPrefix o ++ [ServerMsg.llmComplete full, ServerMsg.ttsStart]
          ++ ttsPhase o full h2)) := by
  intro hh hmem
  rw [ttsPhase_fail o full h2 j htts hj] at hmem
  simp only [llmPrefix, ← List.map_take, List.mem_cons, List.mem_append,
    List.mem_map, List.mem_singleton] at hmem
  simp at hmem

lemma context_window_keeps_last_pair (h : List Message) (u a : Message) :
    List.IsSuffix [u, a] (contextWindow (h ++ [u, a])) := by
  unfold contextWindow
  rw [List.drop_append_of_le_length
    (by simp only [List.length_append, List.length_cons, List.length_nil, MAX_HISTORY]; omega)]
  exact List.suffix_append _ _

/-! ## Claim theorems -/

/-- C6: sentence segmentation yields exactly `["Hello there.", "How are you?"]`
on `"Hello there. How are you?"` and `["no punctuation"]` on
`"no punctuation"`, and every unit it emits (for any input) is non-empty. -/
theorem segmentSentences_spec :
    segmentSentences "Hello there. How are you?" = ["Hello there.", "How are you?"] ∧
    segmentSentences "no punctuation" = ["no punctuation"] ∧
    ∀ (t s : String), s ∈ segmentSentences t → s ≠ "" := by
  refine ⟨by decide, by decide, ?_⟩
  intro t s hs
  simp only [segmentSentences] at hs
  have := List.of_mem_filter hs
  simpa using this

/-- C4: the history entries included in a Bedrock request are exactly the
suffix of the supplied history of length `min 5 (length)`: the context window
is a suffix of the history, has length `min MAX_HISTORY (length)`, and the
request is the optional system prompt, then that window, then the user
text. -/
theorem buildMessages_window_bound (kb text : String) (history : List Message) :
    (contextWindow history).length = min MAX_HISTORY history.length ∧
    List.IsSuffix (contextWindow history) history ∧
    buildMessages kb history text =
      (if history.length = 0 then [userMsg (systemPromptText kb)] else [])
        ++ contextWindow history ++ [userMsg text] := by
  refine ⟨?_, List.drop_suffix _ _, rfl⟩
  simp only [contextWindow, List.length_drop, MAX_HISTORY]
  omega

/-- C9: the leading system/persona instruction is part of the Bedrock request
exactly when the supplied history is empty; otherwise the request is the
trimmed window followed by the current user text. -/
theorem buildMessages_system_prompt_iff_empty (kb text : String) (history : List Message) :
    (history = [] →
      buildMessages kb history text = [userMsg (systemPromptText kb), userMsg text]) ∧
    (history ≠ [] →
      buildMessages kb history text = contextWindow history ++ [userMsg text]) := by
  constructor
  · rintro rfl
    rfl
  · intro hne
    have : history.length ≠ 0 := by
      simpa [List.length_eq_zero] using hne
    simp [buildMessages, this]

/-- C1: for a reply segmenting into `k ≥ 1` sentences, `stream_tts_generation`
emits exactly `k` `tts_chunk` messages, the message at emission position `i`
carries `chunk_index = i` (so indices are `0..k-1`, strictly increasing), and
`is_last` is true on exactly one of them, namely the one with index `k-1`. -/
theorem tts_chunk_indices_correct (synth : String → List Nat) (text : String)
    (h : segmentSentences text ≠ []) :
    (ttsChunks synth (segmentSentences text)).length = (segmentSentences text).length ∧
    (∀ i, (hi : i < (ttsChunks synth (segmentSentences text)).length) →
      ((ttsChunks synth (segmentSentences text)).get ⟨i, hi⟩).chunk_index = i) ∧
    ((ttsChunks synth (segmentSentences text)).filter (fun c => c.is_last)).length = 1 ∧
    (∀ i, (hi : i < (ttsChunks synth (segmentSentences text)).length) →
      (((ttsChunks synth (segmentSentences text)).get ⟨i, hi⟩).is_last = true
        ↔ i = (segmentSentences text).length - 1)) := by
  refine ⟨ttsChunks_length synth _, ?_, ttsChunks_filter_is_last synth _ h, ?_⟩
  · intro i hi
    exact (ttsChunks_get_fields synth _ i hi).1
  · intro i hi
    rw [(ttsChunks_get_fields synth _ i hi).2]
    simp

/-- Witness for C1 at the reply `"Hello there. How are you?"`. -/
theorem tts_chunk_indices_correct_witness :
    segmentSentences "Hello there. How are you?" ≠ [] ∧
    ((ttsChunks (fun _ => [1]) (segmentSentences "Hello there. How are you?")).filter
        (fun c => c.is_last)).length = 1 :=
  ⟨by decide,
    (tts_chunk_indices_correct (fun _ => [1]) "Hello there. How are you?" (by decide)).2.2.1⟩

/-- C2: for a sequence of `audio_chunk` messages followed by `end_turn`, the
bytes passed to transcription are exactly the concatenation of the decoded
payloads in arrival order. -/
theorem transcription_input_is_concat (kb : String) (oA o : Oracle)
    (ds : List (List Nat)) (h : List Message) (ho : Option (List Message))
    (hne : ds ≠ []) :
    (processEndTurn kb o
        (wsRun kb (ds.map (fun d => (oA, ClientMsg.audioChunk d))) ⟨h, []⟩).1
        ho).transcribeInput = some ds.flatten := by
  rw [wsRun_audio_chunks]
  simp only [List.nil_append]
  rcases ds with _ | ⟨d, ds2⟩
  · exact absurd rfl hne
  · cases htr : o.transcribe with
    | error e => simp [processEndTurn, htr]
    | ok t =>
      by_cases hb : pyStrip t = "" <;> simp [processEndTurn, htr, hb]

/-- Witness for C2: two fragments `[1]` and `[2, 3]` reach transcription as
`[1, 2, 3]`. -/
theorem transcription_input_is_concat_witness :
    ([[1], [2, 3]] : List (List Nat)) ≠ [] ∧
    (processEndTurn "" oracleGood
        (wsRun "" ([[1], [2, 3]].map (fun d => (oracleStub, ClientMsg.audioChunk d)))
          ⟨[], []⟩).1 none).transcribeInput = some [1, 2, 3] := by
  refine ⟨by decide, ?_⟩
  have := transcription_input_is_concat "" oracleStub oracleGood [[1], [2, 3]] [] none
    (by decide)
  simpa using this

/-- C3: when the generation stream raises mid-turn (on either the audio or
the plain-text path) the orchestrator emits an error as its final message
for the turn, the loop continues with the session open, and the stored
history gains neither the user nor the assistant entry. -/
theorem generation_failure_preserves_history (kb t e : String) (o : Oracle)
    (st : SessState) (ho : Option (List Message))
    (hbuf : st.audioChunks ≠ [])
    (htr : o.transcribe = Except.ok t)
    (hblank : pyStrip t ≠ "")
    (hllm : o.llmError = some e) :
    ((wsStep kb o st (ClientMsg.endTurn ho)).1.state.history = st.history ∧
     (wsStep kb o st (ClientMsg.endTurn ho)).1.state.audioChunks = [] ∧
     (wsStep kb o st (ClientMsg.endTurn ho)).1.outputs.getLast?
        = some (ServerMsg.error ("Processing error: Bedrock error: " ++ e)) ∧
     (wsStep kb o st (ClientMsg.endTurn ho)).2 = true) ∧
    ((wsStep kb o st (ClientMsg.textMsg t none)).1.state.history = st.history ∧
     (wsStep kb o st (ClientMsg.textMsg t none)).1.outputs.getLast?
        = some (ServerMsg.error ("Processing error: Bedrock error: " ++ e)) ∧
     (wsStep kb o st (ClientMsg.textMsg t none)).2 = true) := by
  have hshape := processEndTurn_shape kb t o st ho hbuf htr hblank
  have hgen := generatePhase_fail o st.history t e hllm
  constructor
  · simp only [wsStep, hshape, hgen]
    refine ⟨trivial, trivial, ?_, trivial⟩
    exact getLast?_cons_concat _ _ _
  · simp only [wsStep, processText, Option.getD_none, hgen]
    refine ⟨trivial, ?_, trivial⟩
    exact List.getLast?_concat _

/-- Witness for C3 with a Bedrock stream that raises after one delta. -/
theorem generation_failure_preserves_history_witness :
    (([[5]] : List (List Nat)) ≠ [] ∧
     oracleLLMFail.transcribe = Except.ok "Hi" ∧
     pyStrip "Hi" ≠ "" ∧
     oracleLLMFail.llmError = some "boom") ∧
    (wsStep "" oracleLLMFail ⟨[], [[5]]⟩ (ClientMsg.endTurn none)).1.state.history = [] := by
  refine ⟨⟨by decide, rfl, by decide, rfl⟩, ?_⟩
  exact (generation_failure_preserves_history "" "Hi" "boom" oracleLLMFail
    ⟨[], [[5]]⟩ none (by decide) rfl (by decide) rfl).1.1

/-- C8: blank or whitespace-only transcription yields exactly the
"No speech detected" error, appends nothing to history, never reaches the
generation request, and leaves the audio buffer cleared for the next turn. -/
theorem blank_transcription_no_effects (kb t : String) (o : Oracle)
    (st : SessState) (ho : Option (List Message))
    (hbuf : st.audioChunks ≠ [])
    (htr : o.transcribe = Except.ok t)
    (hblank : pyStrip t = "") :
    (processEndTurn kb o st ho).outputs = [ServerMsg.error "No speech detected"] ∧
    (processEndTurn kb o st ho).state.history = st.history ∧
    (processEndTurn kb o st ho).state.audioChunks = [] ∧
    (processEndTurn kb o st ho).llmRequest = none := by
  match hst : st.audioChunks with
  | [] => exact absurd hst hbuf
  | a :: as => simp [processEndTurn, hst, htr, hblank]

/-- Witness for C8 with a whitespace-only transcript. -/
theorem blank_transcription_no_effects_witness :
    (([[5]] : List (List Nat)) ≠ [] ∧
     oracleBlank.transcribe = Except.ok "  " ∧
     pyStrip "  " = "") ∧
    (processEndTurn "" oracleBlank ⟨[], [[5]]⟩ none).outputs
      = [ServerMsg.error "No speech detected"] := by
  refine ⟨⟨by decide, rfl, by decide⟩, ?_⟩
  exact (blank_transcription_no_effects "" "  " oracleBlank ⟨[], [[5]]⟩ none
    (by decide) rfl (by decide)).1

/-- C5: on a successfully completed generation stream, the full text carried
by `llm_complete` — which is also stored as the assistant history entry —
equals the concatenation, in emission order, of the `llm_chunk` texts of the
turn. -/
theorem llm_complete_is_chunk_concat (kb t : String) (o : Oracle)
    (st : SessState) (ho : Option (List Message))
    (hbuf : st.audioChunks ≠ [])
    (htr : o.transcribe = Except.ok t)
    (hblank : pyStrip t ≠ "")
    (hllm : o.llmError = none) :
    ServerMsg.llmComplete
        (String.join (llmChunkTexts (processEndTurn kb o st ho).outputs))
      ∈ (processEndTurn kb o st ho).outputs ∧
    (processEndTurn kb o st ho).state.history
      = st.history ++ [userMsg t,
          assistantMsg
            (String.join (llmChunkTexts (processEndTurn kb o st ho).outputs))] := by
  have hshape := processEndTurn_shape kb t o st ho hbuf htr hblank
  have hgen := generatePhase_ok o st.history t hllm
  rw [hshape, hgen]
  simp only []
  rw [llmChunkTexts_turn_outputs]
  constructor
  · simp [List.mem_append]
  · rfl

/-- Witness for C5 with two streamed deltas. -/
theorem llm_complete_is_chunk_concat_witness :
    (([[5]] : List (List Nat)) ≠ [] ∧
     oracleGood.transcribe = Except.ok "Hi there" ∧
     pyStrip "Hi there" ≠ "" ∧
     oracleGood.llmError = none) ∧
    (processEndTurn "" oracleGood ⟨[], [[5]]⟩ none).state.history
      = [userMsg "Hi there",
         assistantMsg (String.join (llmChunkTexts
           (processEndTurn "" oracleGood ⟨[], [[5]]⟩ none).outputs))] := by
  refine ⟨⟨by decide, rfl, by decide, rfl⟩, ?_⟩
  have := (llm_complete_is_chunk_concat "" "Hi there" oracleGood ⟨[], [[5]]⟩ none
    (by decide) rfl (by decide) rfl).2
  simpa using this

/-- C7: `end_turn` with an empty audio buffer yields exactly one `error`
message and nothing else, leaves the session state untouched, keeps the loop
alive, and a subsequent turn on the same session completes normally, ending
in `turn_complete` with the two new history entries. -/
theorem empty_end_turn_recoverable (kb t : String) (o o2 : Oracle)
    (st : SessState) (ho : Option (List Message)) (d : List Nat)
    (hbuf : st.audioChunks = [])
    (htr : o2.transcribe = Except.ok t)
    (hblank : pyStrip t ≠ "")
    (hllm : o2.llmError = none)
    (htts : o2.ttsFailAt = none) :
    (wsStep kb o st (ClientMsg.endTurn ho)).1.outputs
        = [ServerMsg.error "No audio received"] ∧
    (wsStep kb o st (ClientMsg.endTurn ho)).1.state = st ∧
    (wsStep kb o st (ClientMsg.endTurn ho)).2 = true ∧
    ((processEndTurn kb o2
        (wsStep kb o2 (wsStep kb o st (ClientMsg.endTurn ho)).1.state
          (ClientMsg.audioChunk d)).1.state none).state.history
        = st.history ++ [userMsg t, assistantMsg (String.join o2.llmChunks)] ∧
     (processEndTurn kb o2
        (wsStep kb o2 (wsStep kb o st (ClientMsg.endTurn ho)).1.state
          (ClientMsg.audioChunk d)).1.state none).state.audioChunks = [] ∧
     (processEndTurn kb o2
        (wsStep kb o2 (wsStep kb o st (ClientMsg.endTurn ho)).1.state
          (ClientMsg.audioChunk d)).1.state none).outputs.getLast?
        = some (ServerMsg.turnComplete
            (st.history ++ [userMsg t, assistantMsg (String.join o2.llmChunks)]))) := by
  have hstep1 : wsStep kb o st (ClientMsg.endTurn ho)
      = (⟨st, [ServerMsg.error "No audio received"], none, none⟩, true) := by
    simp [wsStep, processEndTurn, hbuf]
  rw [hstep1]
  refine ⟨rfl, rfl, rfl, ?_⟩
  have hstate2 : (wsStep kb o2 st (ClientMsg.audioChunk d)).1.state
      = ⟨st.history, [d]⟩ := by
    simp [wsStep, hbuf]
  rw [hstate2]
  have hshape := processEndTurn_shape kb t o2 ⟨st.history, [d]⟩ none
    (by simp) htr hblank
  rw [hshape, generatePhase_ok o2 st.history t hllm]
  exact ⟨rfl, rfl, getLast?_success_outputs o2 t _ _ htts⟩

/-- Witness for C7: an empty-buffer `end_turn`, then a normal turn. -/
theorem empty_end_turn_recoverable_witness :
    ((⟨[], []⟩ : SessState).audioChunks = [] ∧
     oracleGood.transcribe = Except.ok "Hi there" ∧
     pyStrip "Hi there" ≠ "" ∧
     oracleGood.llmError = none ∧
     oracleGood.ttsFailAt = none) ∧
    (wsStep "" oracleStub ⟨[], []⟩ (ClientMsg.endTurn none)).1.outputs
      = [ServerMsg.error "No audio received"] := by
  refine ⟨⟨rfl, rfl, by decide, rfl, rfl⟩, ?_⟩
  exact (empty_end_turn_recoverable "" "Hi there" oracleStub oracleGood ⟨[], []⟩
    none [9] rfl rfl (by decide) rfl rfl).1

/-- C10: when generation succeeds but the synthesis call for sentence `j`
raises, the user/assistant pair was already appended before synthesis: it
stays in the history after the error, no `turn_complete` is emitted for the
failed turn, the pair lies in the context window of the next generation call,
and the next successful turn's `turn_complete` snapshot contains it. -/
theorem tts_failure_history_already_appended (kb t t2 : String) (o o2 : Oracle)
    (st : SessState) (ho : Option (List Message)) (j : Nat) (d : List Nat)
    (hbuf : st.audioChunks ≠ [])
    (htr : o.transcribe = Except.ok t)
    (hblank : pyStrip t ≠ "")
    (hllm : o.llmError = none)
    (hfail : o.ttsFailAt = some j)
    (hj : j < (segmentSentences (String.join o.llmChunks)).length)
    (htr2 : o2.transcribe = Except.ok t2)
    (hblank2 : pyStrip t2 ≠ "")
    (hllm2 : o2.llmError = none)
    (htts2 : o2.ttsFailAt = none) :
    (processEndTurn kb o st ho).state.history
      = st.history ++ [userMsg t, assistantMsg (String.join o.llmChunks)] ∧
    (∀ hh, ServerMsg.turnComplete hh ∉ (processEndTurn kb o st ho).outputs) ∧
    (processEndTurn kb o st ho).outputs.getLast?
      = some (ServerMsg.error ("Processing error: TTS error: " ++ o.ttsErrText)) ∧
    List.IsSuffix [userMsg t, assistantMsg (String.join o.llmChunks)]
      (contextWindow (processEndTurn kb o st ho).state.history) ∧
    (processEndTurn kb o2
        (wsStep kb o2 (processEndTurn kb o st ho).state
          (ClientMsg.audioChunk d)).1.state none).outputs.getLast?
      = some (ServerMsg.turnComplete
          ((st.history ++ [userMsg t, assistantMsg (String.join o.llmChunks)])
            ++ [userMsg t2, assistantMsg (String.join o2.llmChunks)])) ∧
    List.IsInfix [userMsg t, assistantMsg (String.join o.llmChunks)]
      ((st.history ++ [userMsg t, assistantMsg (String.join o.llmChunks)])
        ++ [userMsg t2, assistantMsg (String.join o2.llmChunks)]) := by
  have hshape := processEndTurn_shape kb t o st ho hbuf htr hblank
  have hgen := generatePhase_ok o st.history t hllm
  have hhist : (processEndTurn kb o st ho).state.history
      = st.history ++ [userMsg t, assistantMsg (String.join o.llmChunks)] := by
    rw [hshape, hgen]
  refine ⟨hhist, ?_, ?_, ?_, ?_, ?_⟩
  · rw [hshape, hgen]
    exact turnComplete_not_mem_fail_outputs o t _ _ j hfail hj
  · rw [hshape, hgen]
    exact getLast?_tts_fail_outputs o t _ _ j hfail hj
  · rw [hhist]
    exact context_window_keeps_last_pair st.history _ _
  · have hstate1 : (processEndTurn kb o st ho).state
        = ⟨st.history ++ [userMsg t, assistantMsg (String.join o.llmChunks)], []⟩ := by
      rw [hshape, hgen]
    rw [hstate1]
    have hstate2 : (wsStep kb o2
        (⟨st.history ++ [userMsg t, assistantMsg (String.join o.llmChunks)], []⟩ : SessState)
        (ClientMsg.audioChunk d)).1.state
        = ⟨st.history ++ [userMsg t, assistantMsg (String.join o.llmChunks)], [d]⟩ := by
      simp [wsStep]
    rw [hstate2]
    have hshape2 := processEndTurn_shape kb t2 o2
      ⟨st.history ++ [userMsg t, assistantMsg (String.join o.llmChunks)], [d]⟩ none
      (by simp) htr2 hblank2
    rw [hshape2, generatePhase_ok o2 _ t2 hllm2]
    exact getLast?_success_outputs o2 t2 _ _ htts2
  · exact ⟨st.history, [userMsg t2, assistantMsg (String.join o2.llmChunks)], by simp⟩

/-- Witness for C10 with synthesis failing on sentence 1 of two. -/
theorem tts_failure_history_already_appended_witness :
    (([[5]] : List (List Nat)) ≠ [] ∧
     oracleTTSFail.transcribe = Except.ok "Hi" ∧
     pyStrip "Hi" ≠ "" ∧
     oracleTTSFail.llmError = none ∧
     oracleTTSFail.ttsFailAt = some 1 ∧
     1 < (segmentSentences (String.join oracleTTSFail.llmChunks)).length ∧
     oracleGood.transcribe = Except.ok "Hi there" ∧
     pyStrip "Hi there" ≠ "" ∧
     oracleGood.llmError = none ∧
     oracleGood.ttsFailAt = none) ∧
    (processEndTurn "" oracleTTSFail ⟨[], [[5]]⟩ none).state.history
      = [userMsg "Hi", assistantMsg (String.join oracleTTSFail.llmChunks)] := by
  refine ⟨⟨by decide, rfl, by decide, rfl, rfl, by decide, rfl, by decide, rfl, rfl⟩, ?_⟩
  have := (tts_failure_history_already_appended "" "Hi" "Hi there" oracleTTSFail
    oracleGood ⟨[], [[5]]⟩ none 1 [9] (by decide) rfl (by decide) rfl rfl
    (by decide) rfl (by decide) rfl rfl).1
  simpa using this

end VoiceAgent
